import Mathlib

/-!
Verification of the BTHI_IR_Decoder library (src/BTHI_IR_Decoder.cpp,
src/BTHI_IR_Decoder.h), a shallow embedding of the buffering IR stream
decoder and the Timer-1 hardware interface.

Modelling conventions:
* `IR_BufferingStreamDecoder` holds a raw buffer `_segments` plus a valid
  count `_count`; only the prefix `_segments[0.._count)` is ever read by
  the class, so the pair is embedded as the list `segments` of the valid
  stored durations, with `_count = segments.length`.
* The `uint8_t` flags `_frame_complete` and `_first_edge` are only ever
  written 0 or 1 and tested against 0, so they are embedded as `Bool`.
* `_segment_overflows` is `uint8_t` with an explicit saturation guard
  (`if (_segment_overflows < 0xFF)`), so `Nat` is faithful: the guard keeps
  it below 256 without relying on wraparound.
* `_max_segments` comes from a `uint8_t` parameter, embedded as the value
  mod 256.
* `cli()/sei()` critical sections order interrupt and foreground accesses;
  in this sequential trace model every call already runs atomically.
-/

/-- State of `IR_BufferingStreamDecoder` (fields of the class in
src/BTHI_IR_Decoder.h, lines 100-106). `segments` stands for the valid
prefix `_segments[0.._count)` of the caller-supplied buffer, so
`segments.length` is `_count`. -/
structure DecoderState where
  segments : List Nat
  max_segments : Nat
  segment_overflows : Nat
  frame_complete : Bool
  first_edge : Bool
deriving Repr, DecidableEq

/-- `IR_BufferingStreamDecoder::IR_BufferingStreamDecoder` (cpp 256-263).
The constructor zeroes `_max_segments`, `_count`, `_segment_overflows`,
`_frame_complete` and arms `_first_edge`. (The write to the pointer lands
on a shadowing local, but the pointer is never dereferenced while
`_max_segments == 0`, which is what claim C9 is about.) -/
def initState : DecoderState :=
  { segments := []
    max_segments := 0
    segment_overflows := 0
    frame_complete := false
    first_edge := true }

/-- `IR_BufferingStreamDecoder::edgeEvent` (cpp 332-355): return if the
frame is complete; discard the first edge; if the buffer is full increment
the overflow counter saturating at 0xFF and drop the edge; otherwise store
the duration at `_count` and increment `_count`. -/
def edgeEvent (s : DecoderState) (duration : Nat) : DecoderState :=
  if s.frame_complete then s
  else if s.first_edge then { s with first_edge := false }
  else if s.max_segments ≤ s.segments.length then
    if s.segment_overflows < 255 then
      { s with segment_overflows := s.segment_overflows + 1 }
    else s
  else { s with segments := s.segments ++ [duration] }

/-- `IR_BufferingStreamDecoder::endOfFrameEvent` (cpp 308-312): set
`_frame_complete` only when at least one segment was stored. -/
def endOfFrameEvent (s : DecoderState) : DecoderState :=
  if 0 < s.segments.length then { s with frame_complete := true } else s

/-- `IR_BufferingStreamDecoder::setSegmentBuffer` (cpp 386-396): install the
buffer and capacity, zero `_count`, `_frame_complete`, `_segment_overflows`,
arm `_first_edge`. The `uint8_t num_segments` parameter is taken mod 256. -/
def setSegmentBuffer (s : DecoderState) (num_segments : Nat) : DecoderState :=
  { segments := []
    max_segments := num_segments % 256
    segment_overflows := 0
    frame_complete := false
    first_edge := true }

/-- `IR_BufferingStreamDecoder::readyForNextFrame` (cpp 408-415): zero
`_count`, `_frame_complete`, `_segment_overflows`, arm `_first_edge`;
buffer and capacity are kept. -/
def readyForNextFrame (s : DecoderState) : DecoderState :=
  { s with segments := []
           frame_complete := false
           segment_overflows := 0
           first_edge := true }

/-- `IR_BufferingStreamDecoder::isDone` (cpp 428-430). -/
def isDone (s : DecoderState) : Bool :=
  s.frame_complete

/-- `IR_BufferingStreamDecoder::getSegmentCount` (cpp 444-450): 0 until the
frame is complete, then `_count`. -/
def getSegmentCount (s : DecoderState) : Nat :=
  if s.frame_complete = false then 0 else s.segments.length

/-- `IR_BufferingStreamDecoder::getSegmentOverflowCount` (cpp 479-481). -/
def getSegmentOverflowCount (s : DecoderState) : Nat :=
  s.segment_overflows

/-- One call into the decoder's public mutating interface. -/
inductive Event where
  | edge (duration : Nat)
  | eof
  | ready
  | setBuf (capacity : Nat)
deriving Repr, DecidableEq

/-- Dispatch one call to the corresponding member function. -/
def stepEvent (s : DecoderState) : Event → DecoderState
  | Event.edge d => edgeEvent s d
  | Event.eof => endOfFrameEvent s
  | Event.ready => readyForNextFrame s
  | Event.setBuf c => setSegmentBuffer s c

/-- Run a sequence of calls left to right. -/
def runEvents (s : DecoderState) (es : List Event) : DecoderState :=
  es.foldl stepEvent s

/-- Formalisation of the spec's notion of the physical waveform's frames,
used only to state claim C1: frames are delimited by end-of-frame signals,
and `firstEdgesOfFrames tr b` collects the durations of the edges that are
the first edge of their physical frame (`b` records whether the next edge
starts a new frame; foreground calls do not move the waveform). -/
def firstEdgesOfFrames : List Event → Bool → List Nat
  | [], _ => []
  | Event.edge d :: rest, true => d :: firstEdgesOfFrames rest false
  | Event.edge _ :: rest, false => firstEdgesOfFrames rest false
  | Event.eof :: rest, _ => firstEdgesOfFrames rest true
  | Event.ready :: rest, b => firstEdgesOfFrames rest b
  | Event.setBuf _ :: rest, b => firstEdgesOfFrames rest b

/- ------------------------------------------------------------------ -/
/- Helper lemmas about runs of edge events.                           -/
/- ------------------------------------------------------------------ -/

theorem runEvents_nil (s : DecoderState) : runEvents s [] = s := rfl

theorem runEvents_cons (s : DecoderState) (e : Event) (es : List Event) :
    runEvents s (e :: es) = runEvents (stepEvent s e) es := rfl

/-- Running edge events from a disarmed, incomplete state stores the
incoming durations in order up to the remaining capacity, and leaves the
capacity and both flags unchanged. -/
theorem runEvents_edges_store (ds : List Nat) :
    ∀ s : DecoderState, s.first_edge = false → s.frame_complete = false →
      (runEvents s (ds.map Event.edge)).segments
          = s.segments ++ ds.take (s.max_segments - s.segments.length) ∧
        (runEvents s (ds.map Event.edge)).max_segments = s.max_segments ∧
        (runEvents s (ds.map Event.edge)).first_edge = false ∧
        (runEvents s (ds.map Event.edge)).frame_complete = false := by
  induction ds with
  | nil => intro s h1 h2; simp [runEvents, h1, h2]
  | cons d ds ih =>
    intro s h1 h2
    have hstep : runEvents s ((d :: ds).map Event.edge)
        = runEvents (edgeEvent s d) (ds.map Event.edge) := rfl
    rw [hstep]
    by_cases hfull : s.max_segments ≤ s.segments.length
    · have hz : s.max_segments - s.segments.length = 0 :=
        Nat.sub_eq_zero_of_le hfull
      by_cases hov : s.segment_overflows < 255
      · have he : edgeEvent s d = { s with segment_overflows := s.segment_overflows + 1 } := by
          simp [edgeEvent, h1, h2, hfull, hov]
        rw [he]
        have := ih { s with segment_overflows := s.segment_overflows + 1 } h1 h2
        simpa [hz, Nat.sub_eq_zero_of_le hfull] using this
      · have he : edgeEvent s d = s := by
          simp [edgeEvent, h1, h2, hfull, hov]
        rw [he]
        have := ih s h1 h2
        simpa [hz] using this
    · have hlt : s.segments.length < s.max_segments := Nat.lt_of_not_le hfull
      have he : edgeEvent s d = { s with segments := s.segments ++ [d] } := by
        simp [edgeEvent, h1, h2, hfull]
      rw [he]
      have := ih { s with segments := s.segments ++ [d] } h1 h2
      obtain ⟨hseg, hmax, hfe, hfc⟩ := this
      refine ⟨?_, by simpa using hmax, hfe, hfc⟩
      rw [hseg]
      have hsucc : s.max_segments - s.segments.length
          = (s.max_segments - (s.segments.length + 1)) + 1 := by omega
      simp [hsucc, List.take_succ_cons]

/-- Running edge events from a disarmed, incomplete, already-full state
drops every duration and bumps the overflow counter once per dropped edge,
saturating at 255. -/
theorem runEvents_edges_full (ds : List Nat) :
    ∀ s : DecoderState, s.first_edge = false → s.frame_complete = false →
      s.max_segments ≤ s.segments.length → s.segment_overflows ≤ 255 →
      (runEvents s (ds.map Event.edge)).segment_overflows
          = min (s.segment_overflows + ds.length) 255 ∧
        (runEvents s (ds.map Event.edge)).segments = s.segments := by
  induction ds with
  | nil =>
    intro s h1 h2 hfull hov
    simp [runEvents]
    omega
  | cons d ds ih =>
    intro s h1 h2 hfull hov
    have hstep : runEvents s ((d :: ds).map Event.edge)
        = runEvents (edgeEvent s d) (ds.map Event.edge) := rfl
    rw [hstep]
    by_cases hlt : s.segment_overflows < 255
    · have he : edgeEvent s d = { s with segment_overflows := s.segment_overflows + 1 } := by
        simp [edgeEvent, h1, h2, hfull, hlt]
      rw [he]
      have := ih { s with segment_overflows := s.segment_overflows + 1 } h1 h2
          (by simpa using hfull) (by simp; omega)
      obtain ⟨hov2, hseg⟩ := this
      refine ⟨?_, by simpa using hseg⟩
      rw [hov2]
      simp
      omega
    · have he : edgeEvent s d = s := by
        simp [edgeEvent, h1, h2, hfull, hlt]
      rw [he]
      have := ih s h1 h2 hfull hov
      obtain ⟨hov2, hseg⟩ := this
      refine ⟨?_, hseg⟩
      rw [hov2]
      omega

/-- Any single call keeps the stored count within the installed capacity. -/
theorem stepEvent_fits (s : DecoderState) (e : Event)
    (h : s.segments.length ≤ s.max_segments) :
    (stepEvent s e).segments.length ≤ (stepEvent s e).max_segments := by
  cases e with
  | edge d =>
    simp only [stepEvent, edgeEvent]
    by_cases hc : s.frame_complete <;> simp [hc]
    · exact h
    · by_cases hf : s.first_edge <;> simp [hf]
      · exact h
      · by_cases hfull : s.max_segments ≤ s.segments.length
        · by_cases hov : s.segment_overflows < 255 <;> simp [hfull, hov] <;> exact h
        · simp [hfull]
          omega
  | eof =>
    simp only [stepEvent, endOfFrameEvent]
    by_cases hz : 0 < s.segments.length <;> simp [hz] <;> exact h
  | ready => simp [stepEvent, readyForNextFrame]
  | setBuf c => simp [stepEvent, setSegmentBuffer]

/-- `edgeEvent` while the frame is complete returns immediately. -/
theorem edgeEvent_frozen (s : DecoderState) (d : Nat)
    (h : s.frame_complete = true) : edgeEvent s d = s := by
  simp [edgeEvent, h]

/-- `endOfFrameEvent` while the frame is complete leaves the state as is
(either branch of the `_count > 0` test rewrites `_frame_complete` to the
value it already has, or returns). -/
theorem endOfFrameEvent_frozen (s : DecoderState)
    (h : s.frame_complete = true) : endOfFrameEvent s = s := by
  cases s with
  | mk seg max ov fc fe =>
    simp only [endOfFrameEvent]
    split <;> simp_all

/-- `endOfFrameEvent` never touches the first-edge flag. -/
theorem endOfFrameEvent_first_edge (s : DecoderState) :
    (endOfFrameEvent s).first_edge = s.first_edge := by
  simp only [endOfFrameEvent]
  split <;> rfl

/-- Calls that reach the decoder from the interrupt path (edge captures and
end-of-frame signals), as opposed to the foreground reset calls. -/
def isCaptureCall : Event → Bool
  | Event.edge _ => true
  | Event.eof => true
  | Event.ready => false
  | Event.setBuf _ => false

/-- The count-within-capacity invariant is preserved by any run. -/
theorem runEvents_fits (tr : List Event) :
    ∀ s : DecoderState, s.segments.length ≤ s.max_segments →
      (runEvents s tr).segments.length ≤ (runEvents s tr).max_segments := by
  induction tr with
  | nil => intro s h; simpa [runEvents] using h
  | cons e es ih =>
    intro s h
    rw [runEvents_cons]
    exact ih (stepEvent s e) (stepEvent_fits s e h)

/- ------------------------------------------------------------------ -/
/- Hardware interface model (IR_HwInterface).                         -/
/- ------------------------------------------------------------------ -/

/-- State of `IR_HwInterface` together with the Timer-1 registers its two
interrupt handlers touch (ATmega328 bit positions: `TOIE1` is bit 0 and
`ICIE1` bit 5 of `TIMSK1`; `ICES1` is bit 6 of `TCCR1B`; `TOV1` is bit 0
of `TIFR1`). `decoder` is the `_decoder` delegate pointer, `none` for
NULL. -/
structure HwState where
  TIMSK1 : Nat
  TCCR1B : Nat
  TCNT1 : Nat
  TIFR1 : Nat
  decoder : Option DecoderState
deriving Repr, DecidableEq

/-- `IR_HwInterface::overflowInterrupt` (cpp 182-191): clear `TOIE1` in
`TIMSK1` (`&= ~(1 << 0)`, i.e. `&&& 254` on the 8-bit register) and, when
the delegate is non-NULL, deliver one `endOfFrameEvent` to it. -/
def overflowInterrupt (h : HwState) : HwState :=
  { h with TIMSK1 := h.TIMSK1 &&& 254
           decoder := h.decoder.map endOfFrameEvent }

/-- `IR_HwInterface::captureInterrupt` (cpp 210-243): zero `TCNT1`, take
`elapsed` from the latched `ICR1` value (the `icr1` argument), clear the
pending overflow flag by writing `1 << TOV1` to `TIFR1`, write
`(1 << ICIE1) | (1 << TOIE1)` to `TIMSK1` (re-arming the overflow
interrupt), toggle the capture edge polarity `ICES1`, and when the
delegate is non-NULL deliver one `edgeEvent(elapsed)` to it. -/
def captureInterrupt (h : HwState) (icr1 : Nat) : HwState :=
  { h with TCNT1 := 0
           TIFR1 := 2 ^ 0
           TIMSK1 := 2 ^ 5 ||| 2 ^ 0
           TCCR1B := if h.TCCR1B &&& 2 ^ 6 = 0 then h.TCCR1B ||| 2 ^ 6
                     else h.TCCR1B &&& 191
           decoder := h.decoder.map (fun d => edgeEvent d icr1) }

/- ------------------------------------------------------------------ -/
/- Claims.                                                            -/
/- ------------------------------------------------------------------ -/

/-- Claim C1 counterexample. The claim fails on the code: after the trace
`edge 100, eof, edge 999, edge 55, eof` from a freshly configured decoder
of capacity 4, duration 999 is the first edge of the second physical frame
(the `eof` after `edge 100` completed nothing, so `_first_edge` stayed
down), yet `999` is stored -- indeed it is the first recorded segment. So
a first edge's duration does appear in the segment buffer, and a frame
exists for which no edge at all was discarded. -/
theorem C1_counterexample :
    firstEdgesOfFrames
        [Event.edge 100, Event.eof, Event.edge 999, Event.edge 55, Event.eof]
        true = [100, 999] ∧
      (runEvents (setSegmentBuffer initState 4)
        [Event.edge 100, Event.eof, Event.edge 999, Event.edge 55, Event.eof]).segments
        = [999, 55] := by
  decide

/-- Claim C1 (amended): for every frame whose capture starts with the
first-edge flag armed -- i.e. started by construction, `setSegmentBuffer`
or `readyForNextFrame` -- exactly the first `edgeEvent` is discarded
before any segment is stored, and the stored segments are the subsequent
durations in order up to capacity (so the first recorded segment is the
second edge of that frame). However, `endOfFrameEvent` never re-arms the
first-edge flag, so after an end-of-frame signal that completed nothing
the first edge of the next physical frame can be stored. -/
theorem C1_first_edge_discarded (s : DecoderState) (ds : List Nat)
    (hf : s.first_edge = true) (hc : s.frame_complete = false) :
    (runEvents s (ds.map Event.edge)).segments
        = s.segments ++ ds.tail.take (s.max_segments - s.segments.length) ∧
      ∀ s' : DecoderState, (endOfFrameEvent s').first_edge = s'.first_edge := by
  refine ⟨?_, endOfFrameEvent_first_edge⟩
  cases ds with
  | nil => simp [runEvents]
  | cons d rest =>
    have hstep : runEvents s ((d :: rest).map Event.edge)
        = runEvents (edgeEvent s d) (rest.map Event.edge) := rfl
    have he : edgeEvent s d = { s with first_edge := false } := by
      simp [edgeEvent, hf, hc]
    rw [hstep, he]
    have := runEvents_edges_store rest { s with first_edge := false } rfl
      (by simpa using hc)
    simpa using this.1

/-- Claim C1 witness: armed empty decoder of capacity 4, four edges; the
first duration 9000 is dropped, the remaining three are stored. -/
theorem C1_first_edge_discarded_witness :
    (⟨[], 4, 0, false, true⟩ : DecoderState).first_edge = true ∧
      (⟨[], 4, 0, false, true⟩ : DecoderState).frame_complete = false ∧
      (runEvents (⟨[], 4, 0, false, true⟩ : DecoderState)
          ([9000, 4500, 560, 1690].map Event.edge)).segments
        = ([] : List Nat)
            ++ [9000, 4500, 560, 1690].tail.take (4 - ([] : List Nat).length) := by
  refine ⟨rfl, rfl, ?_⟩
  exact (C1_first_edge_discarded ⟨[], 4, 0, false, true⟩ [9000, 4500, 560, 1690]
    rfl rfl).1

/-- Claim C2: once `_frame_complete` is set, any sequence of interrupt-path
calls (`edgeEvent` with any duration, `endOfFrameEvent`) leaves the whole
decoder state unchanged -- buffer contents, count, overflow counter,
first-edge flag and complete flag -- until a foreground reset
(`readyForNextFrame`/`setSegmentBuffer`) occurs. -/
theorem C2_frozen_while_complete (s : DecoderState)
    (hc : s.frame_complete = true) (tr : List Event)
    (htr : ∀ e ∈ tr, isCaptureCall e = true) :
    runEvents s tr = s := by
  induction tr with
  | nil => rfl
  | cons e es ih =>
    have he := htr e (by simp)
    have hstep : stepEvent s e = s := by
      cases e with
      | edge d => exact edgeEvent_frozen s d hc
      | eof => exact endOfFrameEvent_frozen s hc
      | ready => simp [isCaptureCall] at he
      | setBuf c => simp [isCaptureCall] at he
    rw [runEvents_cons, hstep]
    exact ih (fun e hmem => htr e (by simp [hmem]))

/-- Claim C2 witness: a completed frame with two segments survives two more
edges and an end-of-frame signal untouched. -/
theorem C2_frozen_while_complete_witness :
    (⟨[7, 8], 4, 1, true, false⟩ : DecoderState).frame_complete = true ∧
      (∀ e ∈ [Event.edge 5, Event.eof, Event.edge 9], isCaptureCall e = true) ∧
      runEvents (⟨[7, 8], 4, 1, true, false⟩ : DecoderState)
          [Event.edge 5, Event.eof, Event.edge 9]
        = (⟨[7, 8], 4, 1, true, false⟩ : DecoderState) := by
  refine ⟨rfl, by decide, ?_⟩
  exact C2_frozen_while_complete ⟨[7, 8], 4, 1, true, false⟩ rfl
    [Event.edge 5, Event.eof, Event.edge 9] (by decide)

/-- Claim C3: `endOfFrameEvent` with at least one stored segment makes
`isDone` report a completed frame; with zero stored segments it is a
complete no-op, and in particular `isDone` stays false, so an idle line
alone is never reported as a frame. -/
theorem C3_eof_needs_segments (s : DecoderState) :
    (0 < s.segments.length → isDone (endOfFrameEvent s) = true) ∧
      (s.segments.length = 0 → endOfFrameEvent s = s) ∧
      (s.segments.length = 0 → s.frame_complete = false →
        isDone (endOfFrameEvent s) = false) := by
  refine ⟨fun h => ?_, fun h => ?_, fun h hc => ?_⟩
  · simp [endOfFrameEvent, isDone, h]
  · simp [endOfFrameEvent, h]
  · simp [endOfFrameEvent, isDone, h, hc]

/-- Claim C3 witness: a one-segment frame completes; an empty one does not. -/
theorem C3_eof_needs_segments_witness :
    isDone (endOfFrameEvent (⟨[560], 4, 0, false, false⟩ : DecoderState)) = true ∧
      endOfFrameEvent (⟨[], 4, 0, false, true⟩ : DecoderState)
        = (⟨[], 4, 0, false, true⟩ : DecoderState) ∧
      isDone (endOfFrameEvent (⟨[], 4, 0, false, true⟩ : DecoderState)) = false := by
  refine ⟨?_, ?_, ?_⟩
  · exact (C3_eof_needs_segments ⟨[560], 4, 0, false, false⟩).1 (by decide)
  · exact (C3_eof_needs_segments ⟨[], 4, 0, false, true⟩).2.1 rfl
  · exact (C3_eof_needs_segments ⟨[], 4, 0, false, true⟩).2.2 rfl rfl

/-- Claim C4: once the stored count has reached capacity, every further
edge is dropped (the segment list is unchanged) and each drop bumps the
overflow counter by one, saturating at 255 (`min` never exceeds 255, so
driving past 255 drops leaves it at 255, never wrapping); and under any
call sequence whatsoever the stored count never exceeds the installed
capacity. -/
theorem C4_overflow_saturates (s : DecoderState) :
    (∀ ds : List Nat, s.first_edge = false → s.frame_complete = false →
        s.max_segments ≤ s.segments.length → s.segment_overflows ≤ 255 →
        (runEvents s (ds.map Event.edge)).segments = s.segments ∧
          (runEvents s (ds.map Event.edge)).segment_overflows
            = min (s.segment_overflows + ds.length) 255) ∧
      (∀ tr : List Event, s.segments.length ≤ s.max_segments →
        (runEvents s tr).segments.length ≤ (runEvents s tr).max_segments) := by
  constructor
  · intro ds h1 h2 h3 h4
    have h := runEvents_edges_full ds s h1 h2 h3 h4
    exact ⟨h.2, h.1⟩
  · intro tr h
    exact runEvents_fits tr s h

/-- Claim C4 witness: a full two-slot buffer with the counter at 254 takes
three more edges: nothing is stored and the counter saturates at 255
(254 + 3 would be 257). -/
theorem C4_overflow_saturates_witness :
    (⟨[1, 2], 2, 254, false, false⟩ : DecoderState).first_edge = false ∧
      (⟨[1, 2], 2, 254, false, false⟩ : DecoderState).frame_complete = false ∧
      (runEvents (⟨[1, 2], 2, 254, false, false⟩ : DecoderState)
          ([7, 8, 9].map Event.edge)).segments = [1, 2] ∧
      (runEvents (⟨[1, 2], 2, 254, false, false⟩ : DecoderState)
          ([7, 8, 9].map Event.edge)).segment_overflows = 255 ∧
      (runEvents (⟨[1, 2], 2, 254, false, false⟩ : DecoderState)
          [Event.setBuf 4, Event.edge 3]).segments.length
        ≤ (runEvents (⟨[1, 2], 2, 254, false, false⟩ : DecoderState)
          [Event.setBuf 4, Event.edge 3]).max_segments := by
  have h := C4_overflow_saturates ⟨[1, 2], 2, 254, false, false⟩
  have h1 := h.1 [7, 8, 9] rfl rfl (by decide) (by decide)
  exact ⟨rfl, rfl, h1.1, h1.2, h.2 [Event.setBuf 4, Event.edge 3] (by decide)⟩

/-- Claim C5: capacity-4 buffer, one frame carrying six segment-worth of
edges (seven edge events, the first being the frame's meaningless first
edge), then the end-of-frame signal: `getSegmentCount` is 4 and
`getSegmentOverflowCount` is 2. -/
theorem C5_capacity4_scenario :
    getSegmentCount (runEvents (setSegmentBuffer initState 4)
        [Event.edge 9000, Event.edge 4500, Event.edge 560, Event.edge 1690,
          Event.edge 560, Event.edge 560, Event.edge 560, Event.eof]) = 4 ∧
      getSegmentOverflowCount (runEvents (setSegmentBuffer initState 4)
        [Event.edge 9000, Event.edge 4500, Event.edge 560, Event.edge 1690,
          Event.edge 560, Event.edge 560, Event.edge 560, Event.eof]) = 2 := by
  decide

/-- Claim C6: `readyForNextFrame` zeroes the count, clears the complete
flag, zeroes the overflow counter and re-arms the first-edge rule, keeping
the capacity; `setSegmentBuffer` is exactly that same four-field reset
plus installation of the new capacity (and buffer). -/
theorem C6_reset_fields (s : DecoderState) (c : Nat) :
    (readyForNextFrame s).segments = [] ∧
      (readyForNextFrame s).frame_complete = false ∧
      (readyForNextFrame s).segment_overflows = 0 ∧
      (readyForNextFrame s).first_edge = true ∧
      (readyForNextFrame s).max_segments = s.max_segments ∧
      setSegmentBuffer s c = { readyForNextFrame s with max_segments := c % 256 } :=
  ⟨rfl, rfl, rfl, rfl, rfl, rfl⟩

/-- Claim C7: the overflow interrupt handler clears its own enable bit
`TOIE1` (so while the line stays idle it cannot fire again -- a second run
of the handler still leaves the bit clear) and delivers exactly one
`endOfFrameEvent` to the registered delegate; the next capture interrupt
writes `TIMSK1 = (1 << ICIE1) | (1 << TOIE1)`, which is the only place the
overflow interrupt is re-enabled. -/
theorem C7_overflow_self_disarms (h : HwState) (d : DecoderState)
    (hd : h.decoder = some d) :
    Nat.testBit (overflowInterrupt h).TIMSK1 0 = false ∧
      (overflowInterrupt h).decoder = some (endOfFrameEvent d) ∧
      Nat.testBit (overflowInterrupt (overflowInterrupt h)).TIMSK1 0 = false ∧
      ∀ icr1 : Nat,
        Nat.testBit (captureInterrupt (overflowInterrupt h) icr1).TIMSK1 0 = true := by
  refine ⟨?_, ?_, ?_, ?_⟩
  · simp [overflowInterrupt, Nat.testBit_land]
  · simp [overflowInterrupt, hd]
  · simp [overflowInterrupt, Nat.testBit_land]
  · intro icr1
    simp [captureInterrupt]

/-- Claim C7 witness: with every `TIMSK1` bit set and the delegate
installed, the overflow handler leaves bit 0 clear and hands the delegate
one end-of-frame; a capture at 500 ticks re-arms bit 0. -/
theorem C7_overflow_self_disarms_witness :
    (⟨255, 0, 5, 0, some initState⟩ : HwState).decoder = some initState ∧
      Nat.testBit (overflowInterrupt ⟨255, 0, 5, 0, some initState⟩).TIMSK1 0 = false ∧
      (overflowInterrupt ⟨255, 0, 5, 0, some initState⟩).decoder
        = some (endOfFrameEvent initState) ∧
      Nat.testBit
        (captureInterrupt (overflowInterrupt ⟨255, 0, 5, 0, some initState⟩) 500).TIMSK1
        0 = true := by
  have h := C7_overflow_self_disarms ⟨255, 0, 5, 0, some initState⟩ initState rfl
  exact ⟨rfl, h.1, h.2.1, h.2.2.2 500⟩

/-- Claim C8: clearing the overflow counter via `readyForNextFrame` is
idempotent: the counter reads 0 after one call and still 0 after a second
call, and the second call changes nothing at all. -/
theorem C8_clear_idempotent (s : DecoderState) :
    getSegmentOverflowCount (readyForNextFrame s) = 0 ∧
      getSegmentOverflowCount (readyForNextFrame (readyForNextFrame s)) = 0 ∧
      readyForNextFrame (readyForNextFrame s) = readyForNextFrame s :=
  ⟨rfl, rfl, rfl⟩

/-- Claim C9: a freshly constructed decoder has capacity 0, so under any
sequence of edge events nothing is ever stored through the unconfigured
buffer pointer (the capacity-full branch is always taken): the segment
list stays empty, the capacity stays 0, and every edge beyond the
discarded first one only bumps the saturating overflow counter. -/
theorem C9_unconfigured_never_stores (ds : List Nat) :
    initState.max_segments = 0 ∧
      (runEvents initState (ds.map Event.edge)).segments = [] ∧
      (runEvents initState (ds.map Event.edge)).max_segments = 0 ∧
      (runEvents initState (ds.map Event.edge)).segment_overflows
        = min (ds.length - 1) 255 := by
  cases ds with
  | nil => exact ⟨rfl, rfl, rfl, rfl⟩
  | cons d rest =>
    have hstep : runEvents initState ((d :: rest).map Event.edge)
        = runEvents { initState with first_edge := false } (rest.map Event.edge) := rfl
    have hfull := runEvents_edges_full rest { initState with first_edge := false }
      rfl rfl (by simp [initState]) (by simp [initState])
    have hstore := runEvents_edges_store rest { initState with first_edge := false }
      rfl rfl
    refine ⟨rfl, ?_, ?_, ?_⟩
    · rw [hstep, hfull.2]
      rfl
    · rw [hstep, hstore.2.1]
      rfl
    · rw [hstep, hfull.1]
      simp [initState]

/-- Claim C10: `getSegmentCount` returns 0 whenever `isDone` is false --
even mid-frame with segments already stored -- and returns the stored
count once the complete flag is set. -/
theorem C10_count_gated_by_done (s : DecoderState) :
    (isDone s = false → getSegmentCount s = 0) ∧
      (isDone s = true → getSegmentCount s = s.segments.length) := by
  constructor <;> intro h <;> simp only [isDone] at h <;>
    simp [getSegmentCount, h]

/-- Claim C10 witness: mid-frame with two segments stored the count reads
0; with the complete flag up it reads the stored count. -/
theorem C10_count_gated_by_done_witness :
    isDone (⟨[7, 8], 4, 0, false, false⟩ : DecoderState) = false ∧
      getSegmentCount (⟨[7, 8], 4, 0, false, false⟩ : DecoderState) = 0 ∧
      isDone (⟨[7, 8], 4, 0, true, false⟩ : DecoderState) = true ∧
      getSegmentCount (⟨[7, 8], 4, 0, true, false⟩ : DecoderState)
        = (⟨[7, 8], 4, 0, true, false⟩ : DecoderState).segments.length := by
  refine ⟨rfl, ?_, rfl, ?_⟩
  · exact (C10_count_gated_by_done ⟨[7, 8], 4, 0, false, false⟩).1 rfl
  · exact (C10_count_gated_by_done ⟨[7, 8], 4, 0, true, false⟩).2 rfl
